import Mathlib

/-!
Verification of the moneyflow-web settlement arithmetic.

This file shallowly embeds the data model and the settlement route handlers
of the repository:

* `getLatestNavAndSharePrice` — the share-price resolver of
  `app/api/admin/execute-deposits/route.ts`;
* `execDepositStep` / `execDepositsLoop` / `executeDepositsPOST` — the
  deposit settlement batch of the same route;
* `getNavAndTotalShares`, `execWithdrawStep` / `execWithdrawalsLoop` /
  `executeWithdrawalsPOST` — the withdrawal settlement batch of
  `app/api/admin/execute-withdrawals/route - 複製.ts`;
* `investorDepositPOST` — `app/api/admin/investor-deposit/route.ts`.

Database rows are Lean structures; nullable columns are `Option`; JavaScript
numbers are modelled as rationals (`ℚ`); timestamps (`created_at`, the values
compared via `new Date(x).getTime()`) are integers.  The hosted database is an
external collaborator: query results (the latest NAV snapshot row, the list of
account rows, the list of PENDING request rows in ascending `created_at`
order) are inputs to the embedded functions, and row updates keyed by
`user_id` / `id` are `List.map` over the corresponding table.
-/

namespace MoneyFlow

/-- A row of `nav_snapshots`.  `total_shares` and `share_price` are nullable
columns (a missing column select yields `undefined`, which behaves like null
under the positivity guards of the resolver). -/
structure NavSnapshot where
  id : Nat
  total_nav : ℚ
  total_shares : Option ℚ
  share_price : Option ℚ
  created_at : ℤ
deriving DecidableEq

/-- A row of `investor_accounts`. -/
structure InvestorAccount where
  user_id : Nat
  principal : ℚ
  shares : ℚ
  pending_withdraw : ℚ
deriving DecidableEq

/-- Status of a deposit request. -/
inductive DepStatus where
  | PENDING
  | MINTED
  | CANCELLED
deriving DecidableEq

/-- A row of `investor_deposit_requests`. -/
structure DepositRequest where
  id : Nat
  user_id : Nat
  amount : ℚ
  status : DepStatus
  created_at : Option ℤ
  executed_at : Option ℤ
  share_price_used : Option ℚ
  minted_shares : Option ℚ
deriving DecidableEq

/-- Status of a withdrawal request. -/
inductive WdStatus where
  | PENDING
  | UNPAID
  | PAID
  | CANCELLED
deriving DecidableEq

/-- A row of `investor_withdraw_requests`. -/
structure WithdrawRequest where
  id : Nat
  user_id : Nat
  amount : ℚ
  status : WdStatus
  executed_at : Option ℤ
deriving DecidableEq

/-- A row of `principal_adjustments`. -/
structure PrincipalAdjustment where
  month : String
  delta : ℚ
  note : String
  created_at : ℤ
deriving DecidableEq

/-- The external database state touched by the settlement handlers. -/
structure DB where
  accounts : List InvestorAccount
  deposits : List DepositRequest
  withdrawals : List WithdrawRequest
  adjustments : List PrincipalAdjustment
deriving DecidableEq

/-- Sum of `shares` across all `investor_accounts` rows
(`totalSharesFromAccounts` in the deposit route). -/
def totalSharesFromAccounts (accounts : List InvestorAccount) : ℚ :=
  (accounts.map (·.shares)).sum

/-- Sum of `principal` across all `investor_accounts` rows
(`totalPrincipal` in the deposit route). -/
def totalPrincipalOf (accounts : List InvestorAccount) : ℚ :=
  (accounts.map (·.principal)).sum

/-- `Number.isFinite(x) && x > 0` applied to a nullable numeric field:
a missing value coerces to NaN (not finite), a null value coerces to 0. -/
def posOpt : Option ℚ → Bool
  | some v => decide (0 < v)
  | none => false

/-- Which branch of the resolver produced the share price
(the `sharePriceSource` string of the deposit route). -/
inductive PriceSource where
  | snapshotSharePrice
  | snapshotNavOverShares
  | fallbackLiveSum
deriving DecidableEq

/-- Return value of `getLatestNavAndSharePrice`. -/
structure PriceInfo where
  nav : ℚ
  navCreatedAt : Option ℤ
  navId : Option Nat
  totalShares : ℚ
  totalPrincipal : ℚ
  sharePrice : Option ℚ
  sharePriceSource : PriceSource
deriving DecidableEq

/-- `getLatestNavAndSharePrice` of `execute-deposits/route.ts`:
prefer `nav_snapshots.share_price`, else `total_nav / total_shares` of the
snapshot (when both are positive), else fall back to
`total_nav / totalSharesFromAccounts` when that live sum is positive,
else no price. -/
def getLatestNavAndSharePrice (navRow : Option NavSnapshot)
    (accounts : List InvestorAccount) : PriceInfo :=
  let nav : ℚ := (navRow.map (·.total_nav)).getD 0
  let tS := totalSharesFromAccounts accounts
  let tP := totalPrincipalOf accounts
  let base : PriceInfo :=
    { nav := nav
      navCreatedAt := navRow.map (·.created_at)
      navId := navRow.map (·.id)
      totalShares := tS
      totalPrincipal := tP
      sharePrice := if 0 < tS then some (nav / tS) else none
      sharePriceSource := .fallbackLiveSum }
  if posOpt (navRow.bind (·.share_price)) then
    { base with
        sharePrice := navRow.bind (·.share_price)
        sharePriceSource := .snapshotSharePrice }
  else
    match navRow.bind (·.total_shares) with
    | some ts =>
        if 0 < ts ∧ 0 < nav then
          if 0 < nav / ts then
            { base with
                sharePrice := some (nav / ts)
                sharePriceSource := .snapshotNavOverShares }
          else base
        else base
    | none => base

/-- Return value of `getNavAndTotalShares` (withdrawal route). -/
structure NavTotals where
  nav : ℚ
  navCreatedAt : Option ℤ
  totalShares : ℚ
  sharePrice : Option ℚ
deriving DecidableEq

/-- `getNavAndTotalShares` of `execute-withdrawals/route - 複製.ts`:
the price is always `total_nav` of the latest snapshot divided by the live
sum of account shares (null when that sum is not positive); the snapshot's
own `share_price` and `total_shares` columns are not consulted. -/
def getNavAndTotalShares (navRow : Option NavSnapshot)
    (accounts : List InvestorAccount) : NavTotals :=
  let nav : ℚ := (navRow.map (·.total_nav)).getD 0
  let tS := totalSharesFromAccounts accounts
  { nav := nav
    navCreatedAt := navRow.map (·.created_at)
    totalShares := tS
    sharePrice := if 0 < tS then some (nav / tS) else none }

/-- `monthKeyNow` of `execute-deposits/route.ts`: the current year and
one-based month rendered as `YYYY-MM` with a zero-padded month. -/
def monthKey (year month : Nat) : String :=
  toString year ++ "-" ++ (if month < 10 then "0" ++ toString month else toString month)

/-- The note string written on the automatic `principal_adjustments` row. -/
def depositNote (uid depId : Nat) (navId : Option Nat) : String :=
  "auto: deposit minted user=" ++ toString uid ++ " deposit_id=" ++ toString depId
    ++ " nav_id=" ++ (match navId with | some n => toString n | none => "null")

/-- The epsilon of the deposit principal cap (`EPS = 1e-6` in the route). -/
def EPS : ℚ := 1 / 1000000

/-- `updateDepositRequestCompat`: mark one `investor_deposit_requests` row
MINTED with `executed_at`, `share_price_used` and `minted_shares`
(the `nav_snapshot_id` compatibility retry does not change these fields). -/
def markDepositMinted (depId : Nat) (now : ℤ) (sp minted : ℚ)
    (deposits : List DepositRequest) : List DepositRequest :=
  deposits.map fun r =>
    if r.id == depId then
      { r with status := .MINTED, executed_at := some now,
               share_price_used := some sp, minted_shares := some minted }
    else r

/-- Per-request failure reason in a deposit settlement batch. -/
inductive DepReason where
  | InvalidAmount
  | NavTooOld
  | PrincipalExceedsNav
  | AccountNotFound
deriving DecidableEq

/-- One entry of the deposit batch result list. -/
structure DepResult where
  id : Nat
  ok : Bool
  reason : Option DepReason
deriving DecidableEq

/-- The body of the per-deposit loop of `execute-deposits` POST: validate the
amount, enforce `nav_created_at >= deposit_created_at`, enforce the running
principal cap against NAV, then mint `amount / sharePrice` shares: add them
to the account row, add `amount` to its principal, mark the request MINTED
and append a `principal_adjustments` row of delta `amount` for the current
month.  Returns the new database state, the new running principal total and
the result entry. -/
def execDepositStep (sharePrice nav : ℚ) (navTs : ℤ) (navId : Option Nat)
    (now : ℤ) (month : String) (db : DB) (principalRunning : ℚ)
    (d : DepositRequest) : DB × ℚ × DepResult :=
  if d.amount ≤ 0 then (db, principalRunning, ⟨d.id, false, some .InvalidAmount⟩)
  else
    match d.created_at with
    | none => (db, principalRunning, ⟨d.id, false, some .NavTooOld⟩)
    | some depTs =>
      if navTs < depTs then
        (db, principalRunning, ⟨d.id, false, some .NavTooOld⟩)
      else if nav + EPS < principalRunning + d.amount then
        (db, principalRunning, ⟨d.id, false, some .PrincipalExceedsNav⟩)
      else
        match db.accounts.find? (fun a => a.user_id == d.user_id) with
        | none => (db, principalRunning, ⟨d.id, false, some .AccountNotFound⟩)
        | some acct =>
          let mintedShares := d.amount / sharePrice
          let newShares := acct.shares + mintedShares
          let newPrincipal := acct.principal + d.amount
          let accounts' := db.accounts.map fun a =>
            if a.user_id == d.user_id then
              { a with shares := newShares, principal := newPrincipal }
            else a
          let deposits' := markDepositMinted d.id now sharePrice mintedShares db.deposits
          let adjustments' := db.adjustments
            ++ [⟨month, d.amount, depositNote d.user_id d.id navId, now⟩]
          ({ db with accounts := accounts', deposits := deposits',
                     adjustments := adjustments' },
           principalRunning + d.amount, ⟨d.id, true, none⟩)

/-- The deposit settlement loop over the PENDING rows (ascending
`created_at`), threading the database state and the running principal
total, collecting one result entry per request. -/
def execDepositsLoop (sharePrice nav : ℚ) (navTs : ℤ) (navId : Option Nat)
    (now : ℤ) (month : String) :
    DB → ℚ → List DepositRequest → DB × ℚ × List DepResult
  | db, pr, [] => (db, pr, [])
  | db, pr, d :: rest =>
    let s := execDepositStep sharePrice nav navTs navId now month db pr d
    let t := execDepositsLoop sharePrice nav navTs navId now month s.1 s.2.1 rest
    (t.1, t.2.1, s.2.2 :: t.2.2)

/-- Batch-level error of the `execute-deposits` POST handler. -/
inductive DepBatchError where
  | NavCreatedAtMissing
  | SharePriceUnavailable
deriving DecidableEq

/-- The `execute-deposits` POST handler after authentication: resolve the
price, require a snapshot timestamp and a positive price, then run the
settlement loop starting the running total at the sum of principal across
all accounts.  `pending` is the PENDING query result in ascending
`created_at` order. -/
def executeDepositsPOST (navRow : Option NavSnapshot) (db : DB)
    (pending : List DepositRequest) (now : ℤ) (month : String) :
    Except DepBatchError (DB × List DepResult) :=
  let info := getLatestNavAndSharePrice navRow db.accounts
  match info.navCreatedAt with
  | none => .error .NavCreatedAtMissing
  | some navTs =>
    match info.sharePrice with
    | none => .error .SharePriceUnavailable
    | some sp =>
      if sp ≤ 0 then .error .SharePriceUnavailable
      else
        let r := execDepositsLoop sp info.nav navTs info.navId now month
          db info.totalPrincipal pending
        .ok (r.1, r.2.2)

/-- Per-request failure reason in a withdrawal settlement batch. -/
inductive WdReason where
  | InvalidAmount
  | AccountNotFound
  | InsufficientShares
deriving DecidableEq

/-- One entry of the withdrawal batch result list. -/
structure WdResult where
  id : Nat
  ok : Bool
  reason : Option WdReason
deriving DecidableEq

/-- The epsilon of the sufficient-shares check
(`currentShares + 1e-12 < burnShares` in the withdrawal route). -/
def WEPS : ℚ := 1 / 1000000000000

/-- The body of the per-withdrawal loop of `execute-withdrawals` POST:
validate the amount, require the account to hold at least
`amount / sharePrice` shares up to `WEPS`, then burn the shares, floor
`pending_withdraw - amount` at zero and mark the request UNPAID with
`executed_at`. -/
def execWithdrawStep (sharePrice : ℚ) (now : ℤ) (db : DB)
    (w : WithdrawRequest) : DB × WdResult :=
  if w.amount ≤ 0 then (db, ⟨w.id, false, some .InvalidAmount⟩)
  else
    let burnShares := w.amount / sharePrice
    match db.accounts.find? (fun a => a.user_id == w.user_id) with
    | none => (db, ⟨w.id, false, some .AccountNotFound⟩)
    | some acct =>
      if acct.shares + WEPS < burnShares then
        (db, ⟨w.id, false, some .InsufficientShares⟩)
      else
        let newShares := acct.shares - burnShares
        let newPending := max 0 (acct.pending_withdraw - w.amount)
        let accounts' := db.accounts.map fun a =>
          if a.user_id == w.user_id then
            { a with shares := newShares, pending_withdraw := newPending }
          else a
        let withdrawals' := db.withdrawals.map fun r =>
          if r.id == w.id then
            { r with status := .UNPAID, executed_at := some now }
          else r
        ({ db with accounts := accounts', withdrawals := withdrawals' },
         ⟨w.id, true, none⟩)

/-- The withdrawal settlement loop over the PENDING rows, threading the
database state and collecting one result entry per request. -/
def execWithdrawalsLoop (sharePrice : ℚ) (now : ℤ) :
    DB → List WithdrawRequest → DB × List WdResult
  | db, [] => (db, [])
  | db, w :: rest =>
    let s := execWithdrawStep sharePrice now db w
    let t := execWithdrawalsLoop sharePrice now s.1 rest
    (t.1, s.2 :: t.2)

/-- Batch-level error of the `execute-withdrawals` POST handler. -/
inductive WdBatchError where
  | SharePriceUnavailable
deriving DecidableEq

/-- The `execute-withdrawals` POST handler after authentication: resolve the
batch price via `getNavAndTotalShares`, require it positive, then run the
withdrawal loop.  `pending` is the PENDING query result. -/
def executeWithdrawalsPOST (navRow : Option NavSnapshot) (db : DB)
    (pending : List WithdrawRequest) (now : ℤ) :
    Except WdBatchError (DB × List WdResult) :=
  match (getNavAndTotalShares navRow db.accounts).sharePrice with
  | none => .error .SharePriceUnavailable
  | some sp =>
    if sp ≤ 0 then .error .SharePriceUnavailable
    else .ok (execWithdrawalsLoop sp now db pending)

/-- Error of the `investor-deposit` POST handler. -/
inductive InvDepError where
  | AmountInvalid
  | AccountNotFound
deriving DecidableEq

/-- The `investor-deposit` POST handler after authentication and body
validation: add `amount` to the account's principal (shares untouched) and
insert a new PENDING `investor_deposit_requests` row. -/
def investorDepositPOST (db : DB) (uid : Nat) (amount : ℚ) (now : ℤ)
    (newId : Nat) : Except InvDepError DB :=
  if amount ≤ 0 then .error .AmountInvalid
  else
    match db.accounts.find? (fun a => a.user_id == uid) with
    | none => .error .AccountNotFound
    | some acct =>
      let newPrincipal := acct.principal + amount
      let accounts' := db.accounts.map fun a =>
        if a.user_id == uid then { a with principal := newPrincipal } else a
      let newReq : DepositRequest :=
        { id := newId, user_id := uid, amount := amount, status := .PENDING,
          created_at := some now, executed_at := none,
          share_price_used := none, minted_shares := none }
      .ok { db with accounts := accounts', deposits := db.deposits ++ [newReq] }

/-- HTTP status chosen by the catch block of `execute-deposits` POST:
401 for the Unauthorized error of the admin-cookie check, 500 otherwise. -/
def executeDepositsCatchStatus (msg : String) : Nat :=
  if msg = "Unauthorized" then 401 else 500

/-- HTTP status chosen by the catch block of `investor-deposit` POST. -/
def investorDepositCatchStatus (msg : String) : Nat :=
  if msg = "Unauthorized" then 401 else 500

/-- HTTP status chosen by the catch block of `execute-withdrawals` POST:
every thrown error is answered with status 401. -/
def executeWithdrawalsCatchStatus (_msg : String) : Nat := 401

/-- Sum of the amounts of the requests whose paired result entry is
successful: the contribution of earlier settlements in a batch to the
running principal total. -/
def okAmountSum (ds : List DepositRequest) (rs : List DepResult) : ℚ :=
  (((ds.zip rs).filter fun p => p.2.ok).map fun p => p.1.amount).sum

/-- A concrete account table: one investor holding 100 shares. -/
def exampleAccounts : List InvestorAccount := [⟨1, 0, 100, 0⟩]

/-- A concrete pending deposit of 600 created at time 0. -/
def exampleDeposit1 : DepositRequest :=
  ⟨1, 1, 600, .PENDING, some 0, none, none, none⟩

/-- A second concrete pending deposit of 600 created at time 0. -/
def exampleDeposit2 : DepositRequest :=
  ⟨2, 1, 600, .PENDING, some 0, none, none, none⟩

/-- A concrete pending deposit created after the NAV snapshot of time 0. -/
def staleDeposit : DepositRequest :=
  ⟨3, 1, 100, .PENDING, some 10, none, none, none⟩

/-- A concrete database state for the deposit settlement examples. -/
def exampleDB : DB := ⟨exampleAccounts, [exampleDeposit1, exampleDeposit2], [], []⟩

/-- A concrete pending withdrawal of 50. -/
def wdExampleReq : WithdrawRequest := ⟨1, 1, 50, .PENDING, none⟩

/-- A database whose single account holds 3 shares (withdrawing 50 at price
10 needs 5 shares). -/
def wdExampleDB : DB := ⟨[⟨1, 0, 3, 0⟩], [], [wdExampleReq], []⟩

/-- A database whose single account holds 100 shares and 60 of
`pending_withdraw`. -/
def wdRichDB : DB := ⟨[⟨1, 0, 100, 60⟩], [], [wdExampleReq], []⟩

/-- A database for the investor-deposit example: principal 100, 10 shares. -/
def c8DB : DB := ⟨[⟨1, 100, 10, 0⟩], [], [], []⟩

/-- A nullable numeric field none of whose values are positive fails the
`isFinite && > 0` guard. -/
lemma posOpt_eq_false (o : Option ℚ) (h : ∀ v, o = some v → v ≤ 0) :
    posOpt o = false := by
  cases o with
  | none => rfl
  | some v => simp [posOpt, not_lt.mpr (h v rfl)]

/-- Claim C1: the share price resolver follows a strict priority order, first
success wins: a positive `snapshot.share_price` is returned exactly; else a
positive `snapshot.total_shares` together with a positive `total_nav` yields
`total_nav / total_shares`; else `total_nav` divided by the live sum of
account shares when that sum is positive; else no price (PriceUnavailable). -/
theorem share_price_resolver_priority (snap : NavSnapshot)
    (accounts : List InvestorAccount) :
    ((∀ sp, snap.share_price = some sp → 0 < sp →
      (getLatestNavAndSharePrice (some snap) accounts).sharePrice = some sp)
    ∧ ((∀ sp, snap.share_price = some sp → sp ≤ 0) →
        ∀ ts, snap.total_shares = some ts → 0 < ts → 0 < snap.total_nav →
        (getLatestNavAndSharePrice (some snap) accounts).sharePrice
          = some (snap.total_nav / ts)))
    ∧ ((∀ sp, snap.share_price = some sp → sp ≤ 0) →
        (∀ ts, snap.total_shares = some ts → ts ≤ 0 ∨ snap.total_nav ≤ 0) →
        0 < totalSharesFromAccounts accounts →
        (getLatestNavAndSharePrice (some snap) accounts).sharePrice
          = some (snap.total_nav / totalSharesFromAccounts accounts))
    ∧ ((∀ sp, snap.share_price = some sp → sp ≤ 0) →
        (∀ ts, snap.total_shares = some ts → ts ≤ 0 ∨ snap.total_nav ≤ 0) →
        totalSharesFromAccounts accounts ≤ 0 →
        (getLatestNavAndSharePrice (some snap) accounts).sharePrice = none) := by
  refine ⟨⟨?_, ?_⟩, ?_, ?_⟩
  · intro sp hsp hpos
    simp [getLatestNavAndSharePrice, posOpt, hsp, hpos]
  · intro hno ts hts htspos hnavpos
    have hPos : posOpt snap.share_price = false :=
      posOpt_eq_false _ (fun v hv => hno v hv)
    have hdiv : 0 < snap.total_nav / ts := div_pos hnavpos htspos
    simp [getLatestNavAndSharePrice, hPos, hts, htspos, hnavpos, hdiv]
  · intro hno hnots hsum
    have hPos : posOpt snap.share_price = false :=
      posOpt_eq_false _ (fun v hv => hno v hv)
    cases h : snap.total_shares with
    | none => simp [getLatestNavAndSharePrice, hPos, h, hsum]
    | some ts =>
        have hts := hnots ts h
        have hcond : ¬ (0 < ts ∧ 0 < snap.total_nav) := by
          rcases hts with hts | hts
          · exact fun hc => absurd hc.1 (not_lt.mpr hts)
          · exact fun hc => absurd hc.2 (not_lt.mpr hts)
        simp [getLatestNavAndSharePrice, hPos, h, hcond, hsum]
  · intro hno hnots hsum
    have hPos : posOpt snap.share_price = false :=
      posOpt_eq_false _ (fun v hv => hno v hv)
    cases h : snap.total_shares with
    | none => simp [getLatestNavAndSharePrice, hPos, h, not_lt.mpr hsum]
    | some ts =>
        have hts := hnots ts h
        have hcond : ¬ (0 < ts ∧ 0 < snap.total_nav) := by
          rcases hts with hts | hts
          · exact fun hc => absurd hc.1 (not_lt.mpr hts)
          · exact fun hc => absurd hc.2 (not_lt.mpr hts)
        simp [getLatestNavAndSharePrice, hPos, h, hcond, not_lt.mpr hsum]

/-- Witness for `share_price_resolver_priority`: all four branches evaluated
at concrete snapshots and account lists. -/
theorem share_price_resolver_priority_witness :
    ((getLatestNavAndSharePrice (some ⟨1, 100, some 20, some 5, 0⟩)
        []).sharePrice = some 5)
    ∧ ((getLatestNavAndSharePrice (some ⟨1, 100, some 20, none, 0⟩)
        []).sharePrice = some 5)
    ∧ ((getLatestNavAndSharePrice (some ⟨1, 100, none, none, 0⟩)
        [⟨1, 0, 50, 0⟩]).sharePrice = some 2)
    ∧ ((getLatestNavAndSharePrice (some ⟨1, 100, none, none, 0⟩)
        []).sharePrice = none) := by
  refine ⟨?_, ?_, ?_, ?_⟩
  · exact (share_price_resolver_priority ⟨1, 100, some 20, some 5, 0⟩ []).1.1
      5 rfl (by norm_num)
  · have := (share_price_resolver_priority ⟨1, 100, some 20, none, 0⟩ []).1.2
      (by intro sp h; cases h) 20 rfl (by norm_num) (by norm_num)
    rw [this]; norm_num
  · have := (share_price_resolver_priority ⟨1, 100, none, none, 0⟩
      [⟨1, 0, 50, 0⟩]).2.1
      (by intro sp h; cases h) (by intro ts h; cases h)
      (by norm_num [totalSharesFromAccounts])
    rw [this]
    norm_num [totalSharesFromAccounts]
  · exact (share_price_resolver_priority ⟨1, 100, none, none, 0⟩ []).2.2
      (by intro sp h; cases h) (by intro ts h; cases h)
      (by norm_num [totalSharesFromAccounts])

/-- Updating the rows matched by a predicate with a match-preserving map
commutes with `find?`. -/
lemma find?_map_ite {α : Type} (p : α → Bool) (f : α → α) (l : List α)
    (hf : ∀ a, p (f a) = p a) :
    (l.map fun a => if p a then f a else a).find? p = (l.find? p).map f := by
  induction l with
  | nil => rfl
  | cons a t ih =>
      cases hpa : p a with
      | true =>
          have : p (f a) = true := by rw [hf, hpa]
          simp [List.find?, hpa, this]
      | false => simp [List.find?, hpa, ih]

/-- A successful deposit settlement step, fully evaluated. -/
lemma execDepositStep_success (sp nav : ℚ) (navTs : ℤ) (navId : Option Nat)
    (now : ℤ) (month : String) (db : DB) (pr : ℚ) (d : DepositRequest)
    (t : ℤ) (acct : InvestorAccount)
    (hamt : 0 < d.amount) (ht : d.created_at = some t) (hle : t ≤ navTs)
    (hcap : ¬ nav + EPS < pr + d.amount)
    (hfind : db.accounts.find? (fun a => a.user_id == d.user_id) = some acct) :
    execDepositStep sp nav navTs navId now month db pr d =
      ({ accounts := db.accounts.map fun a =>
            if a.user_id == d.user_id then
              { a with shares := acct.shares + d.amount / sp,
                       principal := acct.principal + d.amount }
            else a,
         deposits := markDepositMinted d.id now sp (d.amount / sp) db.deposits,
         withdrawals := db.withdrawals,
         adjustments := db.adjustments
           ++ [⟨month, d.amount, depositNote d.user_id d.id navId, now⟩] },
       pr + d.amount, ⟨d.id, true, none⟩) := by
  simp [execDepositStep, ht, hfind, not_le.mpr hamt, not_lt.mpr hle, hcap]

/-- A failing deposit settlement step changes neither the database state nor
the running principal total. -/
lemma execDepositStep_fail (sp nav : ℚ) (navTs : ℤ) (navId : Option Nat)
    (now : ℤ) (month : String) (db : DB) (pr : ℚ) (d : DepositRequest)
    (h : (execDepositStep sp nav navTs navId now month db pr d).2.2.ok = false) :
    (execDepositStep sp nav navTs navId now month db pr d).1 = db
    ∧ (execDepositStep sp nav navTs navId now month db pr d).2.1 = pr := by
  by_cases h1 : d.amount ≤ 0
  · simp [execDepositStep, h1]
  · cases hc : d.created_at with
    | none => simp [execDepositStep, h1, hc]
    | some t =>
        by_cases h2 : navTs < t
        · simp [execDepositStep, h1, hc, h2]
        · by_cases h3 : nav + EPS < pr + d.amount
          · simp [execDepositStep, h1, hc, h2, h3]
          · cases hf : db.accounts.find? (fun a => a.user_id == d.user_id) with
            | none => simp [execDepositStep, h1, hc, h2, h3, hf]
            | some acct =>
                exfalso
                simp [execDepositStep, h1, hc, h2, h3, hf] at h

/-- The running principal total moves by exactly the deposit amount on
success and is untouched otherwise. -/
lemma execDepositStep_principal (sp nav : ℚ) (navTs : ℤ) (navId : Option Nat)
    (now : ℤ) (month : String) (db : DB) (pr : ℚ) (d : DepositRequest) :
    (execDepositStep sp nav navTs navId now month db pr d).2.1 =
      if (execDepositStep sp nav navTs navId now month db pr d).2.2.ok
      then pr + d.amount else pr := by
  by_cases h1 : d.amount ≤ 0
  · simp [execDepositStep, h1]
  · cases hc : d.created_at with
    | none => simp [execDepositStep, h1, hc]
    | some t =>
        by_cases h2 : navTs < t
        · simp [execDepositStep, h1, hc, h2]
        · by_cases h3 : nav + EPS < pr + d.amount
          · simp [execDepositStep, h1, hc, h2, h3]
          · cases hf : db.accounts.find? (fun a => a.user_id == d.user_id) with
            | none => simp [execDepositStep, h1, hc, h2, h3, hf]
            | some acct => simp [execDepositStep, h1, hc, h2, h3, hf]

/-- A successful step presupposes a deposit timestamp no newer than the
snapshot timestamp. -/
lemma execDepositStep_ok_created (sp nav : ℚ) (navTs : ℤ) (navId : Option Nat)
    (now : ℤ) (month : String) (db : DB) (pr : ℚ) (d : DepositRequest)
    (h : (execDepositStep sp nav navTs navId now month db pr d).2.2.ok = true) :
    ∃ t, d.created_at = some t ∧ t ≤ navTs := by
  by_cases h1 : d.amount ≤ 0
  · simp [execDepositStep, h1] at h
  · cases hc : d.created_at with
    | none => simp [execDepositStep, h1, hc] at h
    | some t =>
        by_cases h2 : navTs < t
        · simp [execDepositStep, h1, hc, h2] at h
        · exact ⟨t, rfl, not_lt.mp h2⟩

/-- A deposit newer than the snapshot is always rejected. -/
lemma execDepositStep_stale (sp nav : ℚ) (navTs : ℤ) (navId : Option Nat)
    (now : ℤ) (month : String) (db : DB) (pr : ℚ) (d : DepositRequest)
    (t : ℤ) (ht : d.created_at = some t) (hstale : navTs < t) :
    (execDepositStep sp nav navTs navId now month db pr d).2.2.ok = false := by
  by_cases h1 : d.amount ≤ 0
  · simp [execDepositStep, h1]
  · simp [execDepositStep, h1, ht, hstale]

/-- For a deposit with a valid amount that passes the forward-pricing gate,
the result reason is `PrincipalExceedsNav` precisely when the running total
plus the amount overshoots NAV plus epsilon. -/
lemma execDepositStep_cap_iff (sp nav : ℚ) (navTs : ℤ) (navId : Option Nat)
    (now : ℤ) (month : String) (db : DB) (pr : ℚ) (d : DepositRequest)
    (t : ℤ) (hamt : 0 < d.amount) (ht : d.created_at = some t)
    (hle : t ≤ navTs) :
    ((execDepositStep sp nav navTs navId now month db pr d).2.2.reason
        = some .PrincipalExceedsNav)
      ↔ nav + EPS < pr + d.amount := by
  by_cases h3 : nav + EPS < pr + d.amount
  · simp [execDepositStep, not_le.mpr hamt, ht, not_lt.mpr hle, h3]
  · cases hf : db.accounts.find? (fun a => a.user_id == d.user_id) with
    | none => simp [execDepositStep, not_le.mpr hamt, ht, not_lt.mpr hle, h3, hf]
    | some acct =>
        simp [execDepositStep, not_le.mpr hamt, ht, not_lt.mpr hle, h3, hf]

/-- The deposit loop yields one result entry per pending request. -/
lemma execDepositsLoop_length (sp nav : ℚ) (navTs : ℤ) (navId : Option Nat)
    (now : ℤ) (month : String) :
    ∀ (pending : List DepositRequest) (db : DB) (pr : ℚ),
    (execDepositsLoop sp nav navTs navId now month db pr pending).2.2.length
      = pending.length
  | [], _, _ => rfl
  | d :: rest, db, pr => by
      simp [execDepositsLoop,
        execDepositsLoop_length sp nav navTs navId now month rest _ _]

/-- The deposit loop on a concatenation runs the second part from the state
left by the first and appends the result lists. -/
lemma execDepositsLoop_append (sp nav : ℚ) (navTs : ℤ) (navId : Option Nat)
    (now : ℤ) (month : String) :
    ∀ (l₁ l₂ : List DepositRequest) (db : DB) (pr : ℚ),
    execDepositsLoop sp nav navTs navId now month db pr (l₁ ++ l₂) =
      ((execDepositsLoop sp nav navTs navId now month
          (execDepositsLoop sp nav navTs navId now month db pr l₁).1
          (execDepositsLoop sp nav navTs navId now month db pr l₁).2.1 l₂).1,
       (execDepositsLoop sp nav navTs navId now month
          (execDepositsLoop sp nav navTs navId now month db pr l₁).1
          (execDepositsLoop sp nav navTs navId now month db pr l₁).2.1 l₂).2.1,
       (execDepositsLoop sp nav navTs navId now month db pr l₁).2.2
         ++ (execDepositsLoop sp nav navTs navId now month
              (execDepositsLoop sp nav navTs navId now month db pr l₁).1
              (execDepositsLoop sp nav navTs navId now month db pr l₁).2.1
              l₂).2.2)
  | [], l₂, db, pr => by simp [execDepositsLoop]
  | d :: rest, l₂, db, pr => by
      simp [execDepositsLoop,
        execDepositsLoop_append sp nav navTs navId now month rest l₂ _ _]

/-- The `i`-th result entry of the deposit loop is the step applied at the
state reached after the first `i` requests. -/
lemma execDepositsLoop_get (sp nav : ℚ) (navTs : ℤ) (navId : Option Nat)
    (now : ℤ) (month : String) :
    ∀ (pending : List DepositRequest) (db : DB) (pr : ℚ) (i : Nat)
      (hi : i < pending.length)
      (h2 : i < (execDepositsLoop sp nav navTs navId now month
                  db pr pending).2.2.length),
    (execDepositsLoop sp nav navTs navId now month db pr pending).2.2.get
        ⟨i, h2⟩ =
      (execDepositStep sp nav navTs navId now month
        (execDepositsLoop sp nav navTs navId now month db pr
          (pending.take i)).1
        (execDepositsLoop sp nav navTs navId now month db pr
          (pending.take i)).2.1
        (pending.get ⟨i, hi⟩)).2.2
  | [], _, _, i, hi, _ => absurd hi (by simp)
  | d :: rest, db, pr, 0, _, _ => by simp [execDepositsLoop]
  | d :: rest, db, pr, i + 1, hi, h2 => by
      have hi' : i < rest.length := Nat.lt_of_succ_lt_succ hi
      have h2' : i < (execDepositsLoop sp nav navTs navId now month
          (execDepositStep sp nav navTs navId now month db pr d).1
          (execDepositStep sp nav navTs navId now month db pr d).2.1
          rest).2.2.length := by
        rw [execDepositsLoop_length]; exact hi'
      simpa [execDepositsLoop] using
        execDepositsLoop_get sp nav navTs navId now month rest
          (execDepositStep sp nav navTs navId now month db pr d).1
          (execDepositStep sp nav navTs navId now month db pr d).2.1
          i hi' h2'

/-- `okAmountSum` on matching cons cells. -/
lemma okAmountSum_cons (d : DepositRequest) (r : DepResult)
    (ds : List DepositRequest) (rs : List DepResult) :
    okAmountSum (d :: ds) (r :: rs)
      = (if r.ok then d.amount else 0) + okAmountSum ds rs := by
  cases hr : r.ok <;> simp [okAmountSum, hr]

/-- The running principal total after the loop is the initial total plus the
amounts of the successfully settled requests. -/
lemma execDepositsLoop_principal (sp nav : ℚ) (navTs : ℤ) (navId : Option Nat)
    (now : ℤ) (month : String) :
    ∀ (pending : List DepositRequest) (db : DB) (pr : ℚ),
    (execDepositsLoop sp nav navTs navId now month db pr pending).2.1
      = pr + okAmountSum pending
          (execDepositsLoop sp nav navTs navId now month db pr pending).2.2
  | [], _, pr => by simp [execDepositsLoop, okAmountSum]
  | d :: rest, db, pr => by
      have hstep := execDepositStep_principal sp nav navTs navId now month db pr d
      have ih := execDepositsLoop_principal sp nav navTs navId now month rest
        (execDepositStep sp nav navTs navId now month db pr d).1
        (execDepositStep sp nav navTs navId now month db pr d).2.1
      cases hok : (execDepositStep sp nav navTs navId now month db pr d).2.2.ok
        with
      | true =>
          simp only [execDepositsLoop, okAmountSum_cons, hok, if_true]
          rw [ih, hstep, hok]
          simp [add_assoc]
      | false =>
          simp only [execDepositsLoop, okAmountSum_cons, hok, if_false]
          rw [ih, hstep, hok]
          simp

/-- A successful withdrawal settlement step, fully evaluated. -/
lemma execWithdrawStep_success (sp : ℚ) (now : ℤ) (db : DB)
    (w : WithdrawRequest) (acct : InvestorAccount)
    (hamt : 0 < w.amount)
    (hfind : db.accounts.find? (fun a => a.user_id == w.user_id) = some acct)
    (hsuf : ¬ acct.shares + WEPS < w.amount / sp) :
    execWithdrawStep sp now db w =
      ({ accounts := db.accounts.map fun a =>
            if a.user_id == w.user_id then
              { a with shares := acct.shares - w.amount / sp,
                       pending_withdraw :=
                         max 0 (acct.pending_withdraw - w.amount) }
            else a,
         deposits := db.deposits,
         withdrawals := db.withdrawals.map fun r =>
            if r.id == w.id then
              { r with status := .UNPAID, executed_at := some now }
            else r,
         adjustments := db.adjustments },
       ⟨w.id, true, none⟩) := by
  simp [execWithdrawStep, not_le.mpr hamt, hfind, hsuf]

/-- A failing withdrawal settlement step leaves the database untouched. -/
lemma execWithdrawStep_fail (sp : ℚ) (now : ℤ) (db : DB) (w : WithdrawRequest)
    (h : (execWithdrawStep sp now db w).2.ok = false) :
    (execWithdrawStep sp now db w).1 = db := by
  by_cases h1 : w.amount ≤ 0
  · simp [execWithdrawStep, h1]
  · cases hf : db.accounts.find? (fun a => a.user_id == w.user_id) with
    | none => simp [execWithdrawStep, h1, hf]
    | some acct =>
        by_cases h2 : acct.shares + WEPS < w.amount / sp
        · simp [execWithdrawStep, h1, hf, h2]
        · exfalso
          simp [execWithdrawStep, h1, hf, h2] at h

/-- The withdrawal loop yields one result entry per pending request. -/
lemma execWithdrawalsLoop_length (sp : ℚ) (now : ℤ) :
    ∀ (pending : List WithdrawRequest) (db : DB),
    (execWithdrawalsLoop sp now db pending).2.length = pending.length
  | [], _ => rfl
  | w :: rest, db => by
      simp [execWithdrawalsLoop, execWithdrawalsLoop_length sp now rest _]

/-- Claim C2: within one deposit settlement batch, the running principal
total before the `i`-th request equals the initial sum of principal across
all accounts plus the amounts of the earlier successful settlements, and a
request with a valid amount that passes the forward-pricing gate is rejected
with `PrincipalExceedsNav` exactly when that running total plus its amount
exceeds `nav + EPS`. -/
theorem deposit_batch_principal_cap (sp nav : ℚ) (navTs : ℤ)
    (navId : Option Nat) (now : ℤ) (month : String) (db : DB)
    (pending : List DepositRequest) (i : Nat) (hi : i < pending.length)
    (t : ℤ) (hamt : 0 < (pending.get ⟨i, hi⟩).amount)
    (ht : (pending.get ⟨i, hi⟩).created_at = some t) (hle : t ≤ navTs) :
    (execDepositsLoop sp nav navTs navId now month db
        (totalPrincipalOf db.accounts) (pending.take i)).2.1
      = totalPrincipalOf db.accounts
        + okAmountSum (pending.take i)
            (execDepositsLoop sp nav navTs navId now month db
              (totalPrincipalOf db.accounts) (pending.take i)).2.2
    ∧ ∃ h2 : i < (execDepositsLoop sp nav navTs navId now month db
          (totalPrincipalOf db.accounts) pending).2.2.length,
        (((execDepositsLoop sp nav navTs navId now month db
            (totalPrincipalOf db.accounts) pending).2.2.get ⟨i, h2⟩).reason
          = some .PrincipalExceedsNav
        ↔ nav + EPS <
            (execDepositsLoop sp nav navTs navId now month db
              (totalPrincipalOf db.accounts) (pending.take i)).2.1
            + (pending.get ⟨i, hi⟩).amount) := by
  refine ⟨execDepositsLoop_principal sp nav navTs navId now month _ db _, ?_⟩
  have h2 : i < (execDepositsLoop sp nav navTs navId now month db
      (totalPrincipalOf db.accounts) pending).2.2.length := by
    rw [execDepositsLoop_length]; exact hi
  refine ⟨h2, ?_⟩
  rw [execDepositsLoop_get sp nav navTs navId now month pending db
    (totalPrincipalOf db.accounts) i hi h2]
  exact execDepositStep_cap_iff sp nav navTs navId now month _ _ _ t hamt ht hle

/-- Claim C3: a pending deposit is settled only against a snapshot at least
as new as the deposit; a deposit created after the snapshot is always
rejected, regardless of NAV capacity. -/
theorem deposit_forward_pricing_gate (sp nav : ℚ) (navTs : ℤ)
    (navId : Option Nat) (now : ℤ) (month : String) (db : DB) (pr : ℚ)
    (pending : List DepositRequest) (i : Nat) (hi : i < pending.length)
    (h2 : i < (execDepositsLoop sp nav navTs navId now month
        db pr pending).2.2.length) :
    (∀ t, (pending.get ⟨i, hi⟩).created_at = some t → navTs < t →
      ((execDepositsLoop sp nav navTs navId now month db pr pending).2.2.get
        ⟨i, h2⟩).ok = false)
    ∧ (((execDepositsLoop sp nav navTs navId now month db pr
          pending).2.2.get ⟨i, h2⟩).ok = true →
        ∃ t, (pending.get ⟨i, hi⟩).created_at = some t ∧ t ≤ navTs) := by
  rw [execDepositsLoop_get sp nav navTs navId now month pending db pr i hi h2]
  constructor
  · intro t ht hstale
    exact execDepositStep_stale sp nav navTs navId now month _ _ _ t ht hstale
  · intro hok
    exact execDepositStep_ok_created sp nav navTs navId now month _ _ _ hok

/-- Claim C4: settling a pending deposit of amount `A` at resolved price `P`
mints exactly `A / P` shares: the account's shares grow by `A / P` and its
principal by `A`, the deposit row becomes MINTED with `executed_at`,
`share_price_used = P` and `minted_shares = A / P`, one
`principal_adjustments` row with delta `A` is appended for the current
month, and the running principal total grows by `A`. -/
theorem deposit_settlement_effects (sp nav : ℚ) (navTs : ℤ)
    (navId : Option Nat) (now : ℤ) (month : String) (db : DB) (pr : ℚ)
    (d : DepositRequest) (t : ℤ) (acct : InvestorAccount)
    (row : DepositRequest)
    (hamt : 0 < d.amount) (ht : d.created_at = some t) (hle : t ≤ navTs)
    (hcap : ¬ nav + EPS < pr + d.amount)
    (hfind : db.accounts.find? (fun a => a.user_id == d.user_id) = some acct)
    (hrow : db.deposits.find? (fun r => r.id == d.id) = some row) :
    (execDepositStep sp nav navTs navId now month db pr d).2.2.ok = true
    ∧ (execDepositStep sp nav navTs navId now month db pr d).1.accounts.find?
        (fun a => a.user_id == d.user_id) =
        some { acct with shares := acct.shares + d.amount / sp,
                         principal := acct.principal + d.amount }
    ∧ (execDepositStep sp nav navTs navId now month db pr d).1.deposits.find?
        (fun r => r.id == d.id) =
        some { row with status := .MINTED, executed_at := some now,
                        share_price_used := some sp,
                        minted_shares := some (d.amount / sp) }
    ∧ (execDepositStep sp nav navTs navId now month db pr d).1.adjustments =
        db.adjustments
          ++ [⟨month, d.amount, depositNote d.user_id d.id navId, now⟩]
    ∧ (execDepositStep sp nav navTs navId now month db pr d).2.1
        = pr + d.amount := by
  rw [execDepositStep_success sp nav navTs navId now month db pr d t acct
    hamt ht hle hcap hfind]
  dsimp only
  refine ⟨rfl, ?_, ?_, rfl, rfl⟩
  · rw [find?_map_ite (fun a => a.user_id == d.user_id)
      (fun a => { a with shares := acct.shares + d.amount / sp,
                         principal := acct.principal + d.amount })
      db.accounts (fun a => rfl), hfind]
    rfl
  · unfold markDepositMinted
    rw [find?_map_ite (fun r => r.id == d.id)
      (fun r => { r with status := .MINTED, executed_at := some now,
                         share_price_used := some sp,
                         minted_shares := some (d.amount / sp) })
      db.deposits (fun r => rfl), hrow]
    rfl

/-- Witness for `deposit_batch_principal_cap`: two deposits of 600 against
NAV 1000 starting from principal 0: the second is rejected with
`PrincipalExceedsNav`. -/
theorem deposit_batch_principal_cap_witness :
    ∃ h2 : 1 < (execDepositsLoop 10 1000 0 (some 1) 5 "2026-10" exampleDB
        (totalPrincipalOf exampleDB.accounts)
        [exampleDeposit1, exampleDeposit2]).2.2.length,
      ((execDepositsLoop 10 1000 0 (some 1) 5 "2026-10" exampleDB
        (totalPrincipalOf exampleDB.accounts)
        [exampleDeposit1, exampleDeposit2]).2.2.get ⟨1, h2⟩).reason
        = some .PrincipalExceedsNav := by
  obtain ⟨hpr, h2, hiff⟩ :=
    deposit_batch_principal_cap 10 1000 0 (some 1) 5 "2026-10" exampleDB
      [exampleDeposit1, exampleDeposit2] 1 (by decide) 0
      (by decide) (by decide) (by decide)
  refine ⟨h2, hiff.mpr ?_⟩
  norm_num [execDepositsLoop, execDepositStep, exampleDB, exampleAccounts,
    exampleDeposit1, exampleDeposit2, totalPrincipalOf, EPS, List.find?]

/-- Witness for `deposit_forward_pricing_gate`: a deposit created at time 10
against a snapshot of time 0 is rejected. -/
theorem deposit_forward_pricing_gate_witness :
    ((execDepositsLoop 10 1000 0 (some 1) 5 "2026-10" exampleDB 0
        [staleDeposit]).2.2.get ⟨0, by decide⟩).ok = false :=
  (deposit_forward_pricing_gate 10 1000 0 (some 1) 5 "2026-10" exampleDB 0
    [staleDeposit] 0 (by decide) (by decide)).1 10 (by decide) (by decide)

/-- Witness for `deposit_settlement_effects`: settling a deposit of 600 at
price 10 mints 60 shares, raises principal to 600, marks the row MINTED and
appends one adjustment of delta 600 for month `monthKey 2026 10`. -/
theorem deposit_settlement_effects_witness :
    (execDepositStep 10 1000 0 (some 1) 5 (monthKey 2026 10) exampleDB 0
        exampleDeposit1).2.2.ok = true
    ∧ (execDepositStep 10 1000 0 (some 1) 5 (monthKey 2026 10) exampleDB 0
        exampleDeposit1).1.accounts.find?
          (fun a => a.user_id == exampleDeposit1.user_id)
        = some ⟨1, 600, 160, 0⟩
    ∧ (execDepositStep 10 1000 0 (some 1) 5 (monthKey 2026 10) exampleDB 0
        exampleDeposit1).1.deposits.find?
          (fun r => r.id == exampleDeposit1.id)
        = some ⟨1, 1, 600, .MINTED, some 0, some 5, some 10, some 60⟩
    ∧ (execDepositStep 10 1000 0 (some 1) 5 (monthKey 2026 10) exampleDB 0
        exampleDeposit1).1.adjustments
        = [⟨monthKey 2026 10, 600, depositNote 1 1 (some 1), 5⟩]
    ∧ (execDepositStep 10 1000 0 (some 1) 5 (monthKey 2026 10) exampleDB 0
        exampleDeposit1).2.1 = 600 := by
  have h := deposit_settlement_effects 10 1000 0 (some 1) 5 (monthKey 2026 10)
    exampleDB 0 exampleDeposit1 0 ⟨1, 0, 100, 0⟩ exampleDeposit1
    (by decide) (by decide) (by decide)
    (by norm_num [EPS, exampleDeposit1]) (by decide) (by decide)
  refine ⟨h.1, ?_, ?_, ?_, ?_⟩
  · rw [h.2.1]; norm_num [exampleDeposit1, InvestorAccount.mk.injEq]
  · rw [h.2.2.1]; norm_num [exampleDeposit1, DepositRequest.mk.injEq]
  · rw [h.2.2.2.1]; rfl
  · rw [h.2.2.2.2]; norm_num [exampleDeposit1]

/-- Claim C5 counterexample: with a latest snapshot carrying
`share_price = 5` while `total_nav / (live share sum) = 1`, the withdrawal
batch price differs from the deposit-side resolver's price. -/
theorem withdrawal_resolver_counterexample :
    (getNavAndTotalShares (some ⟨1, 100, some 20, some 5, 0⟩)
        [⟨1, 0, 100, 0⟩]).sharePrice = some 1
    ∧ (getLatestNavAndSharePrice (some ⟨1, 100, some 20, some 5, 0⟩)
        [⟨1, 0, 100, 0⟩]).sharePrice = some 5
    ∧ (getNavAndTotalShares (some ⟨1, 100, some 20, some 5, 0⟩)
        [⟨1, 0, 100, 0⟩]).sharePrice
      ≠ (getLatestNavAndSharePrice (some ⟨1, 100, some 20, some 5, 0⟩)
        [⟨1, 0, 100, 0⟩]).sharePrice := by
  norm_num [getNavAndTotalShares, getLatestNavAndSharePrice,
    totalSharesFromAccounts, posOpt]

/-- Claim C5 (amended): the withdrawal batch price is always
`total_nav / (live sum of account shares)` (no price when that sum is not
positive); it coincides with the §4.1 resolver exactly when the resolver
reaches its live-sum fallback, i.e. when the snapshot offers neither a
usable `share_price` nor a usable `total_shares`. -/
theorem withdrawal_resolver_live_sum (navRow : Option NavSnapshot)
    (accounts : List InvestorAccount) :
    ((0 < totalSharesFromAccounts accounts →
        (getNavAndTotalShares navRow accounts).sharePrice
          = some (((navRow.map (·.total_nav)).getD 0)
              / totalSharesFromAccounts accounts))
    ∧ (totalSharesFromAccounts accounts ≤ 0 →
        (getNavAndTotalShares navRow accounts).sharePrice = none))
    ∧ ((∀ snap, navRow = some snap →
          (∀ sp, snap.share_price = some sp → sp ≤ 0)
          ∧ (∀ ts, snap.total_shares = some ts →
              ts ≤ 0 ∨ snap.total_nav ≤ 0)) →
        (getNavAndTotalShares navRow accounts).sharePrice
          = (getLatestNavAndSharePrice navRow accounts).sharePrice) := by
  refine ⟨⟨?_, ?_⟩, ?_⟩
  · intro h
    simp [getNavAndTotalShares, h]
  · intro h
    simp [getNavAndTotalShares, not_lt.mpr h]
  · intro h
    cases navRow with
    | none => simp [getNavAndTotalShares, getLatestNavAndSharePrice, posOpt]
    | some snap =>
        obtain ⟨hno, hnots⟩ := h snap rfl
        have hPos : posOpt snap.share_price = false :=
          posOpt_eq_false _ (fun v hv => hno v hv)
        cases hts : snap.total_shares with
        | none => simp [getNavAndTotalShares, getLatestNavAndSharePrice, hPos, hts]
        | some ts =>
            have hcond : ¬ (0 < ts ∧ 0 < snap.total_nav) := by
              rcases hnots ts hts with hx | hx
              · exact fun hc => absurd hc.1 (not_lt.mpr hx)
              · exact fun hc => absurd hc.2 (not_lt.mpr hx)
            simp [getNavAndTotalShares, getLatestNavAndSharePrice, hPos, hts,
              hcond]

/-- Witness for `withdrawal_resolver_live_sum`: a snapshot with neither
`share_price` nor `total_shares` set, over one account with 100 shares. -/
theorem withdrawal_resolver_live_sum_witness :
    (getNavAndTotalShares (some ⟨1, 100, none, none, 0⟩)
        [⟨1, 0, 100, 0⟩]).sharePrice = some 1
    ∧ (getNavAndTotalShares (some ⟨1, 100, none, none, 0⟩)
        [⟨1, 0, 100, 0⟩]).sharePrice
      = (getLatestNavAndSharePrice (some ⟨1, 100, none, none, 0⟩)
        [⟨1, 0, 100, 0⟩]).sharePrice := by
  constructor
  · have h := (withdrawal_resolver_live_sum (some ⟨1, 100, none, none, 0⟩)
      [⟨1, 0, 100, 0⟩]).1.1 (by norm_num [totalSharesFromAccounts])
    rw [h]; norm_num [totalSharesFromAccounts]
  · exact (withdrawal_resolver_live_sum (some ⟨1, 100, none, none, 0⟩)
      [⟨1, 0, 100, 0⟩]).2 (by
        intro snap h
        have hs : snap = ⟨1, 100, none, none, 0⟩ := by
          injection h with h2
          exact h2.symm
        subst hs
        exact ⟨fun sp hsp => Option.noConfusion hsp,
               fun ts hts => Option.noConfusion hts⟩)

/-- Claim C6: a pending withdrawal whose account holds fewer shares than
`amount / price` (beyond the `WEPS` tolerance) is rejected with
`InsufficientShares` and causes no state mutation: the whole database state,
hence the account row and the request row, is returned unchanged. -/
theorem withdrawal_insufficient_shares_no_mutation (sp : ℚ) (now : ℤ)
    (db : DB) (w : WithdrawRequest) (acct : InvestorAccount)
    (hamt : 0 < w.amount)
    (hfind : db.accounts.find? (fun a => a.user_id == w.user_id) = some acct)
    (hins : acct.shares + WEPS < w.amount / sp) :
    execWithdrawStep sp now db w
      = (db, ⟨w.id, false, some .InsufficientShares⟩) := by
  simp [execWithdrawStep, not_le.mpr hamt, hfind, hins]

/-- Witness for `withdrawal_insufficient_shares_no_mutation`: withdrawing 50
at price 10 needs 5 shares while the account holds 3. -/
theorem withdrawal_insufficient_shares_no_mutation_witness :
    execWithdrawStep 10 5 wdExampleDB wdExampleReq
      = (wdExampleDB, ⟨1, false, some .InsufficientShares⟩) :=
  withdrawal_insufficient_shares_no_mutation 10 5 wdExampleDB wdExampleReq
    ⟨1, 0, 3, 0⟩ (by decide) (by decide) (by norm_num [WEPS, wdExampleReq])

/-- Claim C7: a pending withdrawal that passes the sufficient-shares check
burns exactly `amount / price` shares, floors
`pending_withdraw - amount` at zero, and marks the request UNPAID with
`executed_at` set. -/
theorem withdrawal_settlement_effects (sp : ℚ) (now : ℤ) (db : DB)
    (w : WithdrawRequest) (acct : InvestorAccount) (row : WithdrawRequest)
    (hamt : 0 < w.amount)
    (hfind : db.accounts.find? (fun a => a.user_id == w.user_id) = some acct)
    (hsuf : ¬ acct.shares + WEPS < w.amount / sp)
    (hrow : db.withdrawals.find? (fun r => r.id == w.id) = some row) :
    (execWithdrawStep sp now db w).2.ok = true
    ∧ (execWithdrawStep sp now db w).1.accounts.find?
        (fun a => a.user_id == w.user_id)
      = some { acct with shares := acct.shares - w.amount / sp,
                         pending_withdraw :=
                           max 0 (acct.pending_withdraw - w.amount) }
    ∧ (execWithdrawStep sp now db w).1.withdrawals.find?
        (fun r => r.id == w.id)
      = some { row with status := .UNPAID, executed_at := some now } := by
  rw [execWithdrawStep_success sp now db w acct hamt hfind hsuf]
  dsimp only
  refine ⟨rfl, ?_, ?_⟩
  · rw [find?_map_ite (fun a => a.user_id == w.user_id)
      (fun a => { a with shares := acct.shares - w.amount / sp,
                         pending_withdraw :=
                           max 0 (acct.pending_withdraw - w.amount) })
      db.accounts (fun a => rfl), hfind]
    rfl
  · rw [find?_map_ite (fun r => r.id == w.id)
      (fun r => { r with status := .UNPAID, executed_at := some now })
      db.withdrawals (fun r => rfl), hrow]
    rfl

/-- Witness for `withdrawal_settlement_effects`: withdrawing 50 at price 10
from an account with 100 shares and 60 pending: 5 shares burned,
`pending_withdraw` reduced to 10, request UNPAID at time 5. -/
theorem withdrawal_settlement_effects_witness :
    (execWithdrawStep 10 5 wdRichDB wdExampleReq).2.ok = true
    ∧ (execWithdrawStep 10 5 wdRichDB wdExampleReq).1.accounts.find?
        (fun a => a.user_id == wdExampleReq.user_id)
      = some ⟨1, 0, 95, 10⟩
    ∧ (execWithdrawStep 10 5 wdRichDB wdExampleReq).1.withdrawals.find?
        (fun r => r.id == wdExampleReq.id)
      = some ⟨1, 1, 50, .UNPAID, some 5⟩ := by
  have h := withdrawal_settlement_effects 10 5 wdRichDB wdExampleReq
    ⟨1, 0, 100, 60⟩ wdExampleReq (by decide) (by decide)
    (by norm_num [WEPS, wdExampleReq]) (by decide)
  refine ⟨h.1, ?_, ?_⟩
  · rw [h.2.1]; norm_num [wdExampleReq, InvestorAccount.mk.injEq, max_def]
  · rw [h.2.2]; rfl

/-- Claim C8: creating a deposit via `investor-deposit` immediately adds the
amount to the account's principal while leaving shares unchanged and inserts
a PENDING request; settling that request later adds the amount to principal
again, so the account's principal grows by twice the amount in total. -/
theorem investor_deposit_double_principal (db : DB) (uid : Nat) (A : ℚ)
    (now : ℤ) (newId : Nat) (acct : InvestorAccount)
    (sp nav : ℚ) (navTs now2 : ℤ) (navId : Option Nat) (month : String)
    (pr : ℚ)
    (hA : 0 < A)
    (hfind : db.accounts.find? (fun a => a.user_id == uid) = some acct)
    (hgate : now ≤ navTs)
    (hcap : ¬ nav + EPS < pr + A) :
    ∃ db1, investorDepositPOST db uid A now newId = .ok db1
      ∧ db1.accounts.find? (fun a => a.user_id == uid)
          = some { acct with principal := acct.principal + A }
      ∧ db1.deposits = db.deposits
          ++ [⟨newId, uid, A, .PENDING, some now, none, none, none⟩]
      ∧ (execDepositStep sp nav navTs navId now2 month db1 pr
            ⟨newId, uid, A, .PENDING, some now, none, none, none⟩).2.2.ok
          = true
      ∧ (execDepositStep sp nav navTs navId now2 month db1 pr
            ⟨newId, uid, A, .PENDING, some now, none, none,
              none⟩).1.accounts.find? (fun a => a.user_id == uid)
          = some { acct with shares := acct.shares + A / sp,
                             principal := acct.principal + A + A } := by
  refine ⟨{ db with
      accounts := db.accounts.map fun a =>
        if a.user_id == uid then { a with principal := acct.principal + A }
        else a,
      deposits := db.deposits
        ++ [⟨newId, uid, A, .PENDING, some now, none, none, none⟩] },
    ?_, ?_, rfl, ?_, ?_⟩
  · simp [investorDepositPOST, not_le.mpr hA, hfind]
  · rw [find?_map_ite (fun a => a.user_id == uid)
      (fun a => { a with principal := acct.principal + A })
      db.accounts (fun a => rfl), hfind]
    rfl
  · have hfind1 : (db.accounts.map fun a =>
        if a.user_id == uid then { a with principal := acct.principal + A }
        else a).find? (fun a => a.user_id == uid)
        = some { acct with principal := acct.principal + A } := by
      rw [find?_map_ite (fun a => a.user_id == uid)
        (fun a => { a with principal := acct.principal + A })
        db.accounts (fun a => rfl), hfind]
      rfl
    rw [execDepositStep_success sp nav navTs navId now2 month _ pr
      ⟨newId, uid, A, .PENDING, some now, none, none, none⟩ now
      { acct with principal := acct.principal + A } hA rfl hgate hcap hfind1]
  · have hfind1 : (db.accounts.map fun a =>
        if a.user_id == uid then { a with principal := acct.principal + A }
        else a).find? (fun a => a.user_id == uid)
        = some { acct with principal := acct.principal + A } := by
      rw [find?_map_ite (fun a => a.user_id == uid)
        (fun a => { a with principal := acct.principal + A })
        db.accounts (fun a => rfl), hfind]
      rfl
    rw [execDepositStep_success sp nav navTs navId now2 month _ pr
      ⟨newId, uid, A, .PENDING, some now, none, none, none⟩ now
      { acct with principal := acct.principal + A } hA rfl hgate hcap hfind1]
    dsimp only
    rw [find?_map_ite (fun a => a.user_id == uid)
      (fun a => { a with shares := acct.shares + A / sp,
                         principal := acct.principal + A + A })
      (db.accounts.map fun a =>
        if a.user_id == uid then { a with principal := acct.principal + A }
        else a)
      (fun a => rfl), hfind1]
    rfl

/-- Witness for `investor_deposit_double_principal`: creating and then
settling a deposit of 50 on an account with principal 100 yields
principal 200 (and 5 new shares at price 10). -/
theorem investor_deposit_double_principal_witness :
    ∃ db1, investorDepositPOST c8DB 1 50 0 7 = .ok db1
      ∧ db1.accounts.find? (fun a => a.user_id == 1)
          = some { (⟨1, 100, 10, 0⟩ : InvestorAccount) with
                     principal := (100 : ℚ) + 50 }
      ∧ db1.deposits = c8DB.deposits
          ++ [⟨7, 1, 50, .PENDING, some 0, none, none, none⟩]
      ∧ (execDepositStep 10 1000 0 none 5 "2026-10" db1 100
            ⟨7, 1, 50, .PENDING, some 0, none, none, none⟩).2.2.ok = true
      ∧ (execDepositStep 10 1000 0 none 5 "2026-10" db1 100
            ⟨7, 1, 50, .PENDING, some 0, none, none,
              none⟩).1.accounts.find? (fun a => a.user_id == 1)
          = some { (⟨1, 100, 10, 0⟩ : InvestorAccount) with
                     shares := (10 : ℚ) + 50 / 10,
                     principal := (100 : ℚ) + 50 + 50 } :=
  investor_deposit_double_principal c8DB 1 50 0 7 ⟨1, 100, 10, 0⟩ 10 1000 0 5
    none "2026-10" 100 (by decide) (by decide) (by decide)
    (by norm_num [EPS])

/-- Claim C9: within one settlement batch (deposits or withdrawals), every
pending request yields exactly one result entry, a failing request leaves
the state (and the running principal total) untouched, and the loop on a
concatenation processes the tail from the state left by the head while
keeping the earlier results — so a failure neither blocks nor reverts the
other requests. -/
theorem settlement_batch_independence (sp nav : ℚ) (navTs : ℤ)
    (navId : Option Nat) (now : ℤ) (month : String) (db : DB) (pr : ℚ)
    (dpending : List DepositRequest) (wpending : List WithdrawRequest) :
    ((execDepositsLoop sp nav navTs navId now month db pr
        dpending).2.2.length = dpending.length
      ∧ (execWithdrawalsLoop sp now db wpending).2.length = wpending.length)
    ∧ ((∀ d, (execDepositStep sp nav navTs navId now month db pr d).2.2.ok
            = false →
          (execDepositStep sp nav navTs navId now month db pr d).1 = db
          ∧ (execDepositStep sp nav navTs navId now month db pr d).2.1 = pr)
      ∧ (∀ w, (execWithdrawStep sp now db w).2.ok = false →
          (execWithdrawStep sp now db w).1 = db))
    ∧ (∀ l₁ l₂ : List DepositRequest,
        (execDepositsLoop sp nav navTs navId now month db pr
            (l₁ ++ l₂)).2.2
          = (execDepositsLoop sp nav navTs navId now month db pr l₁).2.2
            ++ (execDepositsLoop sp nav navTs navId now month
                 (execDepositsLoop sp nav navTs navId now month db pr l₁).1
                 (execDepositsLoop sp nav navTs navId now month db pr
                   l₁).2.1 l₂).2.2) := by
  refine ⟨⟨execDepositsLoop_length sp nav navTs navId now month dpending db pr,
      execWithdrawalsLoop_length sp now wpending db⟩,
    ⟨fun d hd => execDepositStep_fail sp nav navTs navId now month db pr d hd,
      fun w hw => execWithdrawStep_fail sp now db w hw⟩,
    fun l₁ l₂ => ?_⟩
  rw [execDepositsLoop_append sp nav navTs navId now month l₁ l₂ db pr]

/-- Witness for `settlement_batch_independence`: a stale deposit and an
insufficient-shares withdrawal each fail and leave their database
unchanged. -/
theorem settlement_batch_independence_witness :
    (execDepositStep 10 1000 0 (some 1) 5 "2026-10" exampleDB 0
        staleDeposit).1 = exampleDB
    ∧ (execWithdrawStep 10 5 wdExampleDB wdExampleReq).1 = wdExampleDB := by
  have hdep := settlement_batch_independence 10 1000 0 (some 1) 5 "2026-10"
    exampleDB 0 [] []
  have hwd := settlement_batch_independence 10 1000 0 (some 1) 5 "2026-10"
    wdExampleDB 0 [] []
  exact ⟨(hdep.2.1.1 staleDeposit (by decide)).1,
    hwd.2.1.2 wdExampleReq (by
      norm_num [execWithdrawStep, wdExampleDB, wdExampleReq, WEPS,
        List.find?])⟩

/-- Claim C10 counterexample: the execute-withdrawals catch block answers a
backend failure with status 401, not 500. -/
theorem withdrawals_catch_status_counterexample :
    executeWithdrawalsCatchStatus "database unavailable" = 401
    ∧ executeWithdrawalsCatchStatus "database unavailable" ≠ 500 := by
  exact ⟨rfl, by decide⟩

/-- Claim C10 (amended): the execute-deposits and investor-deposit catch
blocks map the Unauthorized error to 401 and every other error to 500
(malformed input is answered 400 before the catch), but the
execute-withdrawals catch block answers every thrown error — backend
failures included — with 401. -/
theorem admin_error_status_mapping :
    (executeDepositsCatchStatus "Unauthorized" = 401
      ∧ ∀ msg, msg ≠ "Unauthorized" → executeDepositsCatchStatus msg = 500)
    ∧ (investorDepositCatchStatus "Unauthorized" = 401
      ∧ ∀ msg, msg ≠ "Unauthorized" → investorDepositCatchStatus msg = 500)
    ∧ ∀ msg, executeWithdrawalsCatchStatus msg = 401 := by
  refine ⟨⟨rfl, fun msg h => ?_⟩, ⟨rfl, fun msg h => ?_⟩, fun msg => rfl⟩
  · simp [executeDepositsCatchStatus, h]
  · simp [investorDepositCatchStatus, h]

/-- Witness for `admin_error_status_mapping`: a backend error message maps
to 500 on the deposit-side handlers. -/
theorem admin_error_status_mapping_witness :
    executeDepositsCatchStatus "database unavailable" = 500
    ∧ investorDepositCatchStatus "database unavailable" = 500 :=
  ⟨admin_error_status_mapping.1.2 "database unavailable" (by decide),
   admin_error_status_mapping.2.1.2 "database unavailable" (by decide)⟩

end MoneyFlow
